import Mathlib

/-!
Verification of the bunsetu chunk recognizer
(`src/ginza/bunsetu_recognizer.py`).

A sentence is a flat list of tokens; each token carries a part-of-speech
tag (`pos_`), a mutable dependency label (`dep_`) and the index of its
syntactic governor (`head.i` in the source, the `head` field here).
Entity spans arrive as half-open ranges with a designated root index.
The recognizer derives a boolean head flag per token and a `B`/`I`
boundary tag per token in four passes that are embedded one by one
below; the module-level query helpers (`bunsetu_head_list`,
`bunsetu_span`, `bunsetu_phrase_span`, `append_bunsetu_head_dep_suffix`)
are embedded as well.

Python strings are modelled by Lean `String`; the few string operations
the source uses (`str.endswith`, slicing `s[:-k]`, `str.lower`) are
defined explicitly over the character list so that all definitions
compute by kernel reduction.
-/

namespace Ginza

/-- Python `s.endswith(suffix)`. -/
def strEndsWith (s suffix : String) : Bool :=
  suffix.data.isSuffixOf s.data

/-- Python `s[:-k]` for `k ≥ 0`: drop the last `k` characters. -/
def strDropRight (s : String) (k : Nat) : String :=
  ⟨s.data.take (s.data.length - k)⟩

/-- Python `s.lower()` (the labels in play are ASCII). -/
def strToLower (s : String) : String :=
  ⟨s.data.map Char.toLower⟩

/-- One token of the parsed sentence: part-of-speech tag, dependency
label and governor index (`token.head.i` in spaCy). The token's own
index is its position in the document's token list. -/
structure Token where
  pos : String
  dep : String
  head : Nat
deriving DecidableEq, Repr

/-- An entity span `(start, end, root)`: half-open token range plus the
designated root index (spaCy's `ent.root`, supplied by the upstream
recognizer). `end` is a Lean keyword, hence `stop`. -/
structure Ent where
  start : Nat
  stop : Nat
  root : Nat
deriving DecidableEq, Repr

/-- A parsed document: ordered tokens plus entity spans. -/
structure Doc where
  tokens : List Token
  ents : List Ent
deriving DecidableEq, Repr

def Doc.len (d : Doc) : Nat := d.tokens.length

/-- Token at index `i` (all uses in the claims are in range). -/
def Doc.tok (d : Doc) (i : Nat) : Token := d.tokens.getD i ⟨"", "", 0⟩

def Doc.govIdx (d : Doc) (i : Nat) : Nat := (d.tok i).head

def Doc.posAt (d : Doc) (i : Nat) : String := (d.tok i).pos

def Doc.depAt (d : Doc) (i : Nat) : String := (d.tok i).dep

/-- spaCy `token.children`: the tokens whose governor is `i` (a token is
not its own child), in ascending index order. -/
def Doc.childrenOf (d : Doc) (i : Nat) : List Nat :=
  (List.range d.len).filter (fun j => decide (d.govIdx j = i) && decide (j ≠ i))

/-- spaCy `token.rights`: the direct dependents of `i` positioned after
`i`, in ascending index order. -/
def Doc.rightsOf (d : Doc) (i : Nat) : List Nat :=
  (List.range d.len).filter (fun j => decide (i < j) && decide (d.govIdx j = i))

/-- The governor chain of `j` (including `j`), followed until a token is
its own governor; the fuel caps the walk so that malformed (cyclic)
inputs still yield a value. With fuel `d.len` this is the full ancestor
chain on any well-formed tree. -/
def ancestorsFuel (d : Doc) : Nat → Nat → List Nat
  | 0, j => [j]
  | fuel + 1, j =>
    j :: (if d.govIdx j = j then [] else ancestorsFuel d fuel (d.govIdx j))

/-- `j` lies in the subtree rooted at `x` (i.e. `x` is `j` or one of its
ancestors). -/
def inSubtree (d : Doc) (x j : Nat) : Bool :=
  (ancestorsFuel d d.len j).contains x

/-- spaCy `token.right_edge`: the maximum token index in the subtree
rooted at `x` (`x` itself included). -/
def rightEdge (d : Doc) (x : Nat) : Nat :=
  ((List.range d.len).filter (fun j => inSubtree d x j)).foldl Nat.max x

def BUNSETU_HEAD_SUFFIX : String := "_bunsetu"

def PHRASE_RELATIONS : List String := ["compound", "nummod", "nmod"]

/-- The Python dict `POS_PHRASE_MAP`, as an association list. -/
def POS_PHRASE_MAP : List (String × String) :=
  [("NOUN", "NP"), ("NUM", "NP"), ("PRON", "NP"), ("PROPN", "NP"),
   ("VERB", "VP"), ("ADJ", "ADJP"), ("ADV", "ADVP"), ("CCONJ", "CCONJP")]

/-- Head-marking pass of `BunsetuRecognizer.__call__` (lines 110-115),
restricted to one token: a token is a head if its label is `"ROOT"`, or
if its label ends with the reserved suffix, in which case the suffix is
stripped from the label in place. Returns the head flag and the
(possibly rewritten) token. -/
def markToken (t : Token) : Bool × Token :=
  if t.dep = "ROOT" then (true, t)
  else if strEndsWith t.dep BUNSETU_HEAD_SUFFIX then
    (true, { t with dep := strDropRight t.dep BUNSETU_HEAD_SUFFIX.length })
  else (false, t)

/-- The whole head-marking pass: the initial `heads` array and the
tokens with suffixes stripped. Each token is handled independently. -/
def headMarker (ts : List Token) : List Bool × List Token :=
  (ts.map (fun t => (markToken t).1), ts.map (fun t => (markToken t).2))

/-- The inner `while` loop of the subtree-recovery pass (lines 118-124):
from cursor `c`, while the governor `g` of `c` lies strictly before `c`
and is unmarked, set `heads[g]` to `g`'s POS not being `"PUNCT"` and
move the cursor to `g`; once the loop stops, unconditionally mark the
governor of the final cursor. The guard forces the cursor to strictly
decrease, so fuel `c + 1` is never exhausted (`ascendFuel_fuel_irrel`
below proves the fuel-independence); the fuel-out branch repeats the
loop-exit action so the function is total either way. -/
def ascendFuel (d : Doc) : Nat → List Bool → Nat → List Bool
  | 0, heads, c => heads.set (d.govIdx c) true
  | fuel + 1, heads, c =>
    if d.govIdx c < c ∧ heads.getD (d.govIdx c) false = false then
      ascendFuel d fuel
        (heads.set (d.govIdx c) (decide (d.posAt (d.govIdx c) ≠ "PUNCT")))
        (d.govIdx c)
    else heads.set (d.govIdx c) true

def ascend (d : Doc) (heads : List Bool) (c : Nat) : List Bool :=
  ascendFuel d (c + 1) heads c

/-- Number of iterations the governor ascent performs from cursor `c`
(same recursion as `ascendFuel`, counting the loop body executions). -/
def ascendStepsFuel (d : Doc) : Nat → List Bool → Nat → Nat
  | 0, _, _ => 0
  | fuel + 1, heads, c =>
    if d.govIdx c < c ∧ heads.getD (d.govIdx c) false = false then
      ascendStepsFuel d fuel
        (heads.set (d.govIdx c) (decide (d.posAt (d.govIdx c) ≠ "PUNCT")))
        (d.govIdx c) + 1
    else 0

def ascendSteps (d : Doc) (heads : List Bool) (c : Nat) : Nat :=
  ascendStepsFuel d (c + 1) heads c

/-- Subtree-recovery pass (lines 116-124): every token in index order
that is currently marked starts a governor ascent. -/
def subtreeRecovery (d : Doc) (heads : List Bool) : List Bool :=
  (List.range d.len).foldl (fun hs i => if hs.getD i false then ascend d hs i else hs) heads

/-- One entity of the entity pass (lines 126-131,
`# removing head inside ents`). `head = ent.root` is a `Token` (never
`None` for a span), so the loop at line 129 runs; its first iteration
evaluates `t.i != head` — an `int` compared with a `Token` object.
spaCy's `Token.__richcmp__` declares a typed `Token other` parameter,
so the reflected comparison raises `TypeError` and the exception
propagates out of `__call__`. Only an empty span runs the loop zero
times and leaves `heads` untouched. -/
def entityPassEnt (heads : List Bool) (e : Ent) : Except String (List Bool) :=
  if e.start < e.stop then Except.error "TypeError" else Except.ok heads

def entityPassGo : List Ent → List Bool → Except String (List Bool)
  | [], heads => Except.ok heads
  | e :: rest, heads =>
    match entityPassEnt heads e with
    | Except.error err => Except.error err
    | Except.ok h2 => entityPassGo rest h2

/-- Entity pass of `BunsetuRecognizer.__call__` (lines 126-131): the
entities are visited in order and the pass crashes with `TypeError` on
the first token of the first non-empty entity span. -/
def entityPass (d : Doc) (heads : List Bool) : Except String (List Bool) :=
  entityPassGo d.ents heads

/-- Line 154: `tuple(idx for idx, is_head in enumerate(heads) if is_head)`. -/
def headIndices (heads : List Bool) : List Nat :=
  (List.range heads.length).filter (fun i => heads.getD i false)

/-- The right-edge scan of the boundary pass (lines 162-167): walk the
head's right dependents in ascending order; a non-head dependent becomes
the new `right`, the first head dependent replaces `right` by
`right.right_edge` and stops the scan. -/
def scanRightsGo (d : Doc) (heads : List Bool) : List Nat → Nat → Nat
  | [], right => right
  | sub :: rest, right =>
    if heads.getD sub false then rightEdge d right
    else scanRightsGo d heads rest sub

def scanRights (d : Doc) (heads : List Bool) (t : Nat) : Nat :=
  scanRightsGo d heads (d.rightsOf t) t

/-- State of the boundary-labeling loop (lines 156-168). `trace` records
the cursor positions at which `"B"` is written, in order; it is a ghost
field that never influences the computation. -/
structure BLState where
  bi : List String
  next_begin : Nat
  trace : List Nat
deriving DecidableEq, Repr

/-- One iteration of the boundary loop for head `head_i`: write `"B"` at
the cursor if it is in range, then move the cursor past the chunk's
right edge. -/
def blStep (d : Doc) (heads : List Bool) (st : BLState) (head_i : Nat) : BLState :=
  { bi := if st.next_begin < st.bi.length then st.bi.set st.next_begin "B" else st.bi
    next_begin := scanRights d heads head_i + 1
    trace := if st.next_begin < st.bi.length then st.trace ++ [st.next_begin] else st.trace }

def boundaryLoop (d : Doc) (heads : List Bool) : BLState :=
  (headIndices heads).foldl (blStep d heads) ⟨List.replicate d.len "I", 0, []⟩

def boundaryLabeler (d : Doc) (heads : List Bool) : List String :=
  (boundaryLoop d heads).bi

def beginTrace (d : Doc) (heads : List Bool) : List Nat :=
  (boundaryLoop d heads).trace

/-- A value stored in `doc.user_data`: either a tuple of token indices
or a Python function object (identified by its name). -/
inductive PyVal where
  | tupleNat : List Nat → PyVal
  | funcObj : String → PyVal
deriving DecidableEq, Repr

/-- Everything `BunsetuRecognizer.__call__` leaves behind on the
document: the rewritten tokens, the final head flags, the head-index
tuple of line 154, and the two `user_data` entries written at lines
170-171. -/
structure CallResult where
  tokens : List Token
  heads : List Bool
  bunsetu_heads : List Nat
  user_data_bunsetu_heads : PyVal
  user_data_bunsetu_bi_labels : List String
deriving DecidableEq, Repr

/-- `BunsetuRecognizer.__call__` (lines 108-173): the final document
state on success, or the uncaught Python exception (the entity pass
raises `TypeError` whenever the document has a non-empty entity span).
Note line 170: `doc.user_data["bunsetu_heads"] = bunsetu_head_list` —
the name on the right is the module-level function defined at line 40
(there is no local variable of that name), so the function object
itself is stored, not the tuple `bunsetu_heads` computed at line 154. -/
def recognizerCall (d : Doc) : Except String CallResult :=
  let m := headMarker d.tokens
  let d' : Doc := ⟨m.2, d.ents⟩
  let h2 := subtreeRecovery d' m.1
  match entityPass d' h2 with
  | Except.error err => Except.error err
  | Except.ok h3 =>
    Except.ok
      { tokens := m.2
        heads := h3
        bunsetu_heads := headIndices h3
        user_data_bunsetu_heads := PyVal.funcObj "bunsetu_head_list"
        user_data_bunsetu_bi_labels := boundaryLabeler d' h3 }

/-- `bunsetu_head_list(span)` (lines 40-43): read
`doc.user_data["bunsetu_heads"]` and return the stored indices that fall
in the span's window, offset by the window start. Iterating a function
object raises `TypeError`. -/
def bunsetu_head_list (ud : PyVal) (start stop : Nat) : Except String (List Nat) :=
  match ud with
  | PyVal.tupleNat l =>
    Except.ok ((l.filter (fun i => decide (start ≤ i) && decide (i < stop))).map (fun i => i - start))
  | PyVal.funcObj _ => Except.error "TypeError"

/-- Backward scan of `bunsetu_span` (lines 62-67): Python
`for idx in range(begin, 0, -1)` — from `hi` down to `1`; the loop-else
branch yields `0`. -/
def scanBackB (bi : List String) : Nat → Nat
  | 0 => 0
  | idx + 1 => if bi.getD (idx + 1) "" = "B" then idx + 1 else scanBackB bi idx

/-- Forward scan of `bunsetu_span` (lines 69-74) over an explicit index
list (`range(end, doc_len)`); the loop-else branch yields `doc_len`. -/
def scanFwdB (bi : List String) (doc_len : Nat) : List Nat → Nat
  | [] => doc_len
  | idx :: rest => if bi.getD idx "" = "B" then idx else scanFwdB bi doc_len rest

/-- A value passed where the span-typed helpers expect a spaCy `Span`:
either a real span window `[start, stop)` of the document, or the bare
`Doc` itself — which is what `bunsetu_span` (line 59) and
`bunsetu_phrase_span` (line 87) pass. A spaCy `Doc` has a `doc`
attribute (itself) but neither `start` nor `end`. -/
inductive SpanArg where
  | span : Nat → Nat → SpanArg
  | doc : SpanArg
deriving DecidableEq, Repr

/-- `bunsetu_bi_labels(span)` (lines 98-101): read the stored label
list `bi` and return the slice `bi[span.start:span.end]`. Handed the
bare `Doc`, evaluating `span.start` raises `AttributeError` (a `Doc`
has no such attribute). -/
def bunsetu_bi_labels (bi : List String) : SpanArg → Except String (List String)
  | SpanArg.span s e => Except.ok ((bi.drop s).take (e - s))
  | SpanArg.doc => Except.error "AttributeError"

/-- `bunsetu_span(head_token)` (lines 58-77), as the pair of boundaries
of the returned `doc[begin:end]`. `bi` is the document-wide boundary
list `doc.user_data["bunsetu_bi_labels"]`, `doc_len = len(doc)` and
`hi` is the head token's index. Line 59 hands the bare `Doc` to
`bunsetu_bi_labels`, so every call raises `AttributeError` before the
two scans run; the scans of lines 62-74 (embedded as
`scanBackB`/`scanFwdB`) are unreachable on every path. -/
def bunsetu_span (bi : List String) (doc_len hi : Nat) : Except String (Nat × Nat) :=
  match bunsetu_bi_labels bi SpanArg.doc with
  | Except.error err => Except.error err
  | Except.ok bunsetu_bi_list =>
    Except.ok (scanBackB bunsetu_bi_list hi,
      scanFwdB bunsetu_bi_list doc_len (List.range' (hi + 1) (doc_len - (hi + 1))))

/-- Python `min` of a nonempty list (the `[]` case is never reached). -/
def pyMinList : List Nat → Nat
  | [] => 0
  | x :: xs => xs.foldl Nat.min x

/-- Python `max` of a nonempty list (the `[]` case is never reached). -/
def pyMaxList : List Nat → Nat
  | [] => 0
  | x :: xs => xs.foldl Nat.max x

/-- `_traverse` of `bunsetu_phrase_span` (lines 81-86): depth-first over
the children, recursing only into a child that is not itself a chunk
head and whose label is in the relation set; collects the visited
indices (children first, then the node — Python appends the node after
the loop). `headsList` is the list of chunk-head indices the closure
captures. The fuel caps the recursion depth so that malformed (cyclic)
inputs still yield a value; on a tree, fuel `d.len` is never exhausted. -/
def traverse (d : Doc) (headsList : List Nat) (rels : List String) : Nat → Nat → List Nat
  | 0, t => [t]
  | fuel + 1, t =>
    (((d.childrenOf t).filter
        (fun c => !(headsList.contains c) && rels.contains (d.depAt c))).map
      (fun c => traverse d headsList rels fuel c)).flatten ++ [t]

/-- `bunsetu_head_tokens(span)` (lines 46-49), as the list of document
indices of the returned tokens. The comprehension first iterates
`doc.user_data["bunsetu_heads"]`: iterating a stored function object
raises `TypeError` before anything else. With a stored tuple, the
filter evaluates `span.start <= i` for each element, so handing the
bare `Doc` raises `AttributeError` at the first element; only the empty
tuple escapes, because the loop body then never runs. -/
def bunsetu_head_tokens (ud : PyVal) (arg : SpanArg) : Except String (List Nat) :=
  match ud with
  | PyVal.funcObj _ => Except.error "TypeError"
  | PyVal.tupleNat l =>
    match arg with
    | SpanArg.span s e => Except.ok (l.filter (fun i => decide (s ≤ i) && decide (i < e)))
    | SpanArg.doc =>
      match l with
      | [] => Except.ok []
      | _ :: _ => Except.error "AttributeError"

/-- `bunsetu_phrase_span(head_token, phrase_relations)` (lines 80-95):
the returned span `[min collected, max collected + 1)` together with
the phrase label `POS_PHRASE_MAP.get(head.pos_, None)`. Line 87 builds
the head list via `bunsetu_head_tokens(bunsetu_head_token.doc)` — the
bare `Doc` — so the call raises `TypeError` when `user_data` holds the
function object (which is what line 170 always stores), and
`AttributeError` when it holds a non-empty tuple; the span construction
below the match is reachable only for an empty stored tuple. -/
def bunsetu_phrase_span (d : Doc) (ud : PyVal) (h : Nat) (rels : List String) :
    Except String (Nat × Nat × Option String) :=
  match bunsetu_head_tokens ud SpanArg.doc with
  | Except.error err => Except.error err
  | Except.ok headsList =>
    Except.ok
      (pyMinList (traverse d headsList rels d.len h),
       pyMaxList (traverse d headsList rels d.len h) + 1,
       POS_PHRASE_MAP.lookup (d.posAt h))

/-- A token of the window handed to `append_bunsetu_head_dep_suffix`:
its document index, dependency label and governor index. -/
structure WTok where
  i : Nat
  dep : String
  head : Nat
deriving DecidableEq, Repr

/-- The scan of `append_bunsetu_head_dep_suffix` (lines 179-184):
return unchanged at the first token whose lowercased label is `"root"`;
append the suffix to the first token whose governor lies outside
`[first, last]` and stop. -/
def appendGo (first last : Nat) (suffix : String) : List WTok → List WTok
  | [] => []
  | t :: rest =>
    if strToLower t.dep = "root" then t :: rest
    else if t.head < first ∨ last < t.head then
      { t with dep := t.dep ++ suffix } :: rest
    else t :: appendGo first last suffix rest

/-- `append_bunsetu_head_dep_suffix(tokens, suffix)` (lines 176-184).
`tokens[0].i` and `tokens[-1].i` are only evaluated inside the loop, so
the empty window is a no-op. -/
def append_bunsetu_head_dep_suffix (tokens : List WTok) (suffix : String) : List WTok :=
  if suffix = "" then tokens
  else appendGo ((tokens.headD ⟨0, "", 0⟩).i) ((tokens.getLastD ⟨0, "", 0⟩).i) suffix tokens

/-! ## Concrete documents used by the claims -/

/-- The 5-token scenario sentence of the specification: tokens
`[A(1), B(1, ROOT), C(3), D(1), E(1)]` with POS
`[NOUN, VERB, NOUN, NOUN, AUX]` and no entities. -/
def s7Doc : Doc :=
  ⟨[⟨"NOUN", "nsubj", 1⟩, ⟨"VERB", "ROOT", 1⟩, ⟨"NOUN", "nmod", 3⟩,
    ⟨"NOUN", "obj", 1⟩, ⟨"AUX", "aux", 1⟩], []⟩

/-- A 3-token sentence whose `ROOT` token (index 1) lies inside the
entity span `(1, 3)` with designated root 1. -/
def entDoc : Doc :=
  ⟨[⟨"NOUN", "x", 1⟩, ⟨"VERB", "ROOT", 1⟩, ⟨"NOUN", "y", 1⟩], [⟨1, 3, 1⟩]⟩

/-- A well-formed 6-token sentence (single root at 0, all governors in
range, acyclic): token 2 is suffix-marked with its governor to its
right (index 5), token 5 is suffix-marked with governor 0. The final
heads are `{0, 2, 5}` and the boundary loop writes `B` at cursor
positions `0, 5, 3` — not strictly increasing. -/
def nonMonoDoc : Doc :=
  ⟨[⟨"VERB", "ROOT", 0⟩, ⟨"NOUN", "obj", 0⟩, ⟨"NOUN", "obl_bunsetu", 5⟩,
    ⟨"NOUN", "x", 4⟩, ⟨"NOUN", "y", 0⟩, ⟨"NOUN", "z_bunsetu", 0⟩], []⟩

/-- A well-formed 4-token sentence with final heads `{0, 2}` whose
chunk right edges stay below the next head: used to instantiate the
conditional monotonicity theorem. -/
def monoDoc : Doc :=
  ⟨[⟨"VERB", "ROOT", 0⟩, ⟨"NOUN", "w", 0⟩, ⟨"NOUN", "y_bunsetu", 0⟩,
    ⟨"NOUN", "z", 2⟩], []⟩

/-- A malformed 4-token sentence: the governor indices of tokens 2 and 3
form a cycle (`2 → 3 → 2`), and token 3 is suffix-marked so that the
recovery pass actually walks into the cycle. -/
def cycDoc : Doc :=
  ⟨[⟨"VERB", "ROOT", 0⟩, ⟨"NOUN", "obj", 0⟩, ⟨"NOUN", "z", 3⟩,
    ⟨"NOUN", "y_bunsetu", 2⟩], []⟩

/-- A 3-token entity-free sentence for the phrase-span claim: the
recognizer completes on it (heads `{1, 2}`) and stores the function
object under `user_data["bunsetu_heads"]`, which is the value
`bunsetu_phrase_span`'s head-list read then chokes on. -/
def phraseDoc : Doc :=
  ⟨[⟨"NOUN", "compound", 2⟩, ⟨"NOUN", "x_bunsetu", 2⟩, ⟨"NOUN", "ROOT", 2⟩], []⟩

/-- The boundary-annotator window `doc[1:3]` of a sentence in which
token 1 is the sentence root and token 2's governor (index 0) lies
outside the window: the window's effective head is token 2, but the
scan returns at the root-labeled token 1 first. -/
def w9 : List WTok := [⟨1, "ROOT", 1⟩, ⟨2, "y", 0⟩]

/-! ## Supporting lemmas -/

/-- The governor ascent does not depend on the fuel as long as the fuel
exceeds the start cursor: the loop guard forces the cursor to strictly
decrease, so the fuel-out branch of `ascendFuel` is unreachable. -/
lemma ascendFuel_fuel_irrel (d : Doc) :
    ∀ (f1 f2 : Nat) (heads : List Bool) (c : Nat),
      c < f1 → c < f2 → ascendFuel d f1 heads c = ascendFuel d f2 heads c := by
  intro f1
  induction f1 with
  | zero => intro f2 heads c h1 _; omega
  | succ n ih =>
    intro f2 heads c h1 h2
    cases f2 with
    | zero => omega
    | succ m =>
      simp only [ascendFuel]
      split
      · rename_i hg
        exact ih m _ (d.govIdx c) (by omega) (by omega)
      · rfl

/-- The governor ascent started at cursor `c` executes its loop body at
most `c` times. -/
lemma ascendStepsFuel_le (d : Doc) :
    ∀ (fuel : Nat) (heads : List Bool) (c : Nat), ascendStepsFuel d fuel heads c ≤ c := by
  intro fuel
  induction fuel with
  | zero => intro heads c; simp [ascendStepsFuel]
  | succ n ih =>
    intro heads c
    simp only [ascendStepsFuel]
    split
    · rename_i hg
      have h := ih (heads.set (d.govIdx c) (decide (d.posAt (d.govIdx c) ≠ "PUNCT"))) (d.govIdx c)
      omega
    · omega

/-- Re-marking a token whose label was already processed once marks it
only if the first pass marked it. -/
lemma markTwice_le (t : Token) : (markToken (markToken t).2).1 ≤ (markToken t).1 := by
  by_cases hR : t.dep = "ROOT"
  · simp [markToken, hR]
  · by_cases hS : strEndsWith t.dep BUNSETU_HEAD_SUFFIX
    · simp only [markToken, hR, hS, if_true, if_false]
      exact Bool.le_true _
    · simp [markToken, hR, hS]

lemma le_foldl_max : ∀ (l : List Nat) (b : Nat), b ≤ l.foldl Nat.max b := by
  intro l
  induction l with
  | nil => intro b; exact Nat.le_refl b
  | cons a l ih =>
    intro b
    exact Nat.le_trans (Nat.le_max_left b a) (ih (Nat.max b a))

/-- The right edge of a token is at least the token itself. -/
lemma rightEdge_ge (d : Doc) (x : Nat) : x ≤ rightEdge d x :=
  le_foldl_max _ x

lemma rightsOf_mem_gt (d : Doc) (t : Nat) : ∀ s ∈ d.rightsOf t, t < s := by
  intro s hs
  have h2 := (List.mem_filter.mp hs).2
  simp only [Bool.and_eq_true, decide_eq_true_eq] at h2
  exact h2.1

lemma rightsOf_pairwise (d : Doc) (t : Nat) : List.Pairwise (· < ·) (d.rightsOf t) :=
  (List.pairwise_lt_range d.len).filter _

lemma scanRightsGo_ge (d : Doc) (heads : List Bool) :
    ∀ (l : List Nat) (r : Nat), (∀ s ∈ l, r < s) → List.Pairwise (· < ·) l →
      r ≤ scanRightsGo d heads l r := by
  intro l
  induction l with
  | nil => intro r _ _; exact Nat.le_refl r
  | cons s rest ih =>
    intro r hall hp
    simp only [scanRightsGo]
    split
    · exact rightEdge_ge d r
    · have hps := List.pairwise_cons.mp hp
      have h2 := ih s (fun x hx => hps.1 x hx) hps.2
      exact Nat.le_trans (Nat.le_of_lt (hall s (List.mem_cons_self s rest))) h2

/-- The cursor the boundary loop computes for a head is at least the
head's own index. -/
lemma scanRights_ge (d : Doc) (heads : List Bool) (t : Nat) : t ≤ scanRights d heads t :=
  scanRightsGo_ge d heads (d.rightsOf t) t (rightsOf_mem_gt d t) (rightsOf_pairwise d t)

/-- Invariant of the boundary-labeling fold: if every pending head lies
at or beyond the cursor and each head's computed right edge stays below
the next head, the positions at which `B` is written keep strictly
increasing and in range. -/
lemma blFold_inv (d : Doc) (heads : List Bool) :
    ∀ (hs : List Nat) (st : BLState),
      st.bi.length = d.len →
      List.Chain' (· < ·) st.trace →
      (∀ p ∈ st.trace, p < d.len) →
      (∀ p ∈ st.trace, p < st.next_begin) →
      (∀ h0 ∈ hs.head?, st.next_begin ≤ h0) →
      List.Chain' (fun a b => scanRights d heads a < b) hs →
      List.Chain' (· < ·) (List.foldl (blStep d heads) st hs).trace ∧
      (∀ p ∈ (List.foldl (blStep d heads) st hs).trace, p < d.len) := by
  intro hs
  induction hs with
  | nil =>
    intro st _ h2 h3 _ _ _
    exact ⟨h2, h3⟩
  | cons h rest ih =>
    intro st hlen hch htlt htnb hhead hchain
    have hnb_le_h : st.next_begin ≤ h := hhead h rfl
    have hscan : h ≤ scanRights d heads h := scanRights_ge d heads h
    rw [List.foldl_cons]
    have hlen' : (blStep d heads st h).bi.length = d.len := by
      simp only [blStep]
      split
      · rw [List.length_set]; exact hlen
      · exact hlen
    have htr' : (blStep d heads st h).trace =
        if st.next_begin < st.bi.length then st.trace ++ [st.next_begin] else st.trace := rfl
    have hnb' : (blStep d heads st h).next_begin = scanRights d heads h + 1 := rfl
    apply ih (blStep d heads st h) hlen'
    · rw [htr']
      split
      · rw [List.chain'_append]
        refine ⟨hch, List.chain'_singleton _, ?_⟩
        intro x hx y hy
        have hxm : x ∈ st.trace := List.mem_of_mem_getLast? hx
        have hyv : st.next_begin = y := by simpa using hy
        rw [← hyv]
        exact htnb x hxm
      · exact hch
    · rw [htr']
      split
      · rename_i hw
        intro p hp
        rcases List.mem_append.mp hp with hp | hp
        · exact htlt p hp
        · have : p = st.next_begin := by simpa using hp
          rw [this, ← hlen]; exact hw
      · exact htlt
    · rw [htr', hnb']
      split
      · intro p hp
        rcases List.mem_append.mp hp with hp | hp
        · have := htnb p hp
          omega
        · have : p = st.next_begin := by simpa using hp
          omega
      · intro p hp
        have := htnb p hp
        omega
    · rw [hnb']
      cases rest with
      | nil => intro h0 hh0; simp at hh0
      | cons h1 rest' =>
        intro h0 hh0
        have hval : h1 = h0 := by simpa using hh0
        have hrel : scanRights d heads h < h1 := (List.chain'_cons.mp hchain).1
        omega
    · exact hchain.tail

/-- Does a window token's governor lie outside `[first, last]`? (The
test of line 182.) -/
def crossPred (first last : Nat) (t : WTok) : Bool :=
  decide (t.head < first) || decide (last < t.head)

/-- Does a window token's lowercased label read `"root"`? (The test of
line 180.) -/
def rootPred (t : WTok) : Bool :=
  decide (strToLower t.dep = "root")

/-- Position of the first window token whose governor lies outside the
window (the window's length if there is none). -/
def windowTarget (w : List WTok) : Nat :=
  w.findIdx (crossPred ((w.headD ⟨0, "", 0⟩).i) ((w.getLastD ⟨0, "", 0⟩).i))

/-- Position of the first window token whose lowercased label reads
`"root"` (the window's length if there is none). -/
def windowRootBlock (w : List WTok) : Nat :=
  w.findIdx rootPred

lemma appendGo_char (first last : Nat) (suffix : String) :
    ∀ l : List WTok,
      appendGo first last suffix l =
        if l.findIdx (crossPred first last) < l.findIdx rootPred ∧
            l.findIdx (crossPred first last) < l.length then
          l.set (l.findIdx (crossPred first last))
            { l.getD (l.findIdx (crossPred first last)) ⟨0, "", 0⟩ with
                dep := (l.getD (l.findIdx (crossPred first last)) ⟨0, "", 0⟩).dep ++ suffix }
        else l := by
  intro l
  induction l with
  | nil => simp [appendGo]
  | cons t rest ih =>
    by_cases hroot : strToLower t.dep = "root"
    · have hr : rootPred t = true := by simp [rootPred, hroot]
      simp [appendGo, hroot, List.findIdx_cons, hr]
    · have hr : rootPred t = false := by simp [rootPred, hroot]
      by_cases hcross : t.head < first ∨ last < t.head
      · have hc : crossPred first last t = true := by
          simp only [crossPred, Bool.or_eq_true, decide_eq_true_eq]
          exact hcross
        simp [appendGo, hroot, hcross, List.findIdx_cons, hr, hc]
      · have hc : crossPred first last t = false := by
          simp only [crossPred, Bool.or_eq_false_iff, decide_eq_false_iff_not]
          exact ⟨fun h => hcross (Or.inl h), fun h => hcross (Or.inr h)⟩
        simp only [appendGo, hroot, hcross, if_false, List.findIdx_cons, hr, hc,
          cond_false, ih]
        by_cases hcond : rest.findIdx (crossPred first last) < rest.findIdx rootPred ∧
            rest.findIdx (crossPred first last) < rest.length
        · rw [if_pos hcond, if_pos (by simp only [List.length_cons]; omega)]
          rfl
        · rw [if_neg hcond, if_neg (by simp only [List.length_cons]; omega)]

/-- A two-token sentence with one suffix-marked token, for the
head-marking idempotence claim. -/
def ts10 : List Token := [⟨"VERB", "ROOT", 0⟩, ⟨"NOUN", "obj_bunsetu", 0⟩]

/-! ## Claim theorems -/

/-- Claim C1 (evaluation at the failing input): after
`BunsetuRecognizer.__call__` completes (here on the entity-free
scenario sentence), `doc.user_data["bunsetu_heads"]` holds the
module-level function `bunsetu_head_list` itself (line 170 names the
function, not the tuple computed at line 154), so `bunsetu_head_list`
applied to any span iterates a function object and raises `TypeError`
instead of returning the in-span head indices offset by the span
start. -/
theorem C1_user_data_stores_function :
    (recognizerCall s7Doc).map (fun r => r.user_data_bunsetu_heads) =
      Except.ok (PyVal.funcObj "bunsetu_head_list") ∧
    bunsetu_head_list (PyVal.funcObj "bunsetu_head_list") 0 s7Doc.len =
      Except.error "TypeError" :=
  ⟨rfl, rfl⟩

/-- Claim C2 (evaluation at the failing input): on `entDoc`, whose only
entity span is `(1, 3)` with designated root 1, `BunsetuRecognizer.__call__`
never completes: at line 130 the first loop iteration compares the
`int` `t.i` with the `Token` object `head = ent.root`, and spaCy's
typed `Token.__richcmp__` raises `TypeError`. No final head state in
which exactly the root is a head (or any final head state at all) is
ever produced for a document with a non-empty entity span. -/
theorem C2_entity_pass_raises :
    recognizerCall entDoc = Except.error "TypeError" := rfl

/-- Claim C3 (counterexample): on the well-formed sentence `nonMonoDoc`
(single root, in-range acyclic governors) with final heads `{0, 2, 5}`,
the boundary loop writes `B` at cursor positions `0, 5, 3` — the Begin
positions written by the boundary labeler are not strictly
increasing. -/
theorem C3_begin_positions_not_increasing :
    (recognizerCall nonMonoDoc).map (fun r => r.heads) =
      Except.ok [true, false, true, false, false, true] ∧
    beginTrace nonMonoDoc [true, false, true, false, false, true] = [0, 5, 3] ∧
    ¬ List.Chain' (· < ·) (beginTrace nonMonoDoc [true, false, true, false, false, true]) := by
  have h1 : beginTrace nonMonoDoc [true, false, true, false, false, true] = [0, 5, 3] := by
    decide
  refine ⟨rfl, h1, ?_⟩
  rw [h1]
  intro hch
  have h2 : (5 : Nat) < 3 := (List.chain'_cons.mp (List.chain'_cons.mp hch).2).1
  omega

/-- Claim C3 (amended): no `B` is ever written at a cursor position
`≥ n` (the write is guarded), and whenever each head's computed right
edge stays strictly below the next head's index, the Begin positions
written by the boundary labeler are strictly increasing. -/
theorem C3_boundary_guard_and_conditional_monotonicity (d : Doc) (heads : List Bool)
    (hchain : List.Chain' (fun a b => scanRights d heads a < b) (headIndices heads)) :
    List.Chain' (· < ·) (beginTrace d heads) ∧
    ∀ p ∈ beginTrace d heads, p < d.len := by
  have h := blFold_inv d heads (headIndices heads) ⟨List.replicate d.len "I", 0, []⟩
    (by simp) (by simp) (by simp) (by simp) (fun h0 _ => Nat.zero_le h0) hchain
  exact h

/-- Claim C3 (witness for the amended theorem): on `monoDoc` the chunk
right edges stay below the next head, and the written Begin positions
`[0, 2]` are strictly increasing and in range. -/
theorem C3_witness :
    (recognizerCall monoDoc).map (fun r => r.heads) = Except.ok [true, false, true, false] ∧
    List.Chain' (fun a b => scanRights monoDoc [true, false, true, false] a < b)
      (headIndices [true, false, true, false]) ∧
    (List.Chain' (· < ·) (beginTrace monoDoc [true, false, true, false]) ∧
      ∀ p ∈ beginTrace monoDoc [true, false, true, false], p < monoDoc.len) := by
  have hh : headIndices [true, false, true, false] = [0, 2] := by decide
  have hchain : List.Chain' (fun a b => scanRights monoDoc [true, false, true, false] a < b)
      (headIndices [true, false, true, false]) := by
    rw [hh]
    exact List.chain'_cons.mpr ⟨by decide, List.chain'_singleton _⟩
  exact ⟨rfl, hchain,
    C3_boundary_guard_and_conditional_monotonicity monoDoc [true, false, true, false] hchain⟩

/-- Claim C4 (evaluation at the failing input): on `entDoc` the head
marker does flag the ROOT-labeled token (index 1), but the pipeline
then crashes with `TypeError` in the entity pass (line 130, `int`
compared with `Token`), so no final head set exists at all for a
document whose ROOT token lies inside a non-empty entity span — the
claim's "heads true in the final head set" state is never reached. -/
theorem C4_pipeline_dies_before_final_heads :
    (entDoc.tokens.getD 1 ⟨"", "", 0⟩).dep = "ROOT" ∧
    (headMarker entDoc.tokens).1 = [false, true, false] ∧
    recognizerCall entDoc = Except.error "TypeError" :=
  ⟨by decide, by decide, rfl⟩

/-- Claim C5 (evaluation at the failing input): `bunsetu_phrase_span`
never returns a span, for any document, head and relation set. On the
real path, the value line 170 stored under
`doc.user_data["bunsetu_heads"]` is the function object, and iterating
it at lines 46-49 raises `TypeError`; and even if the computed tuple
were stored, a non-empty tuple makes the comprehension evaluate
`span.start` on the bare `Doc` passed at line 87, raising
`AttributeError`. The claimed containment and single-token properties
concern spans the program never produces. -/
theorem C5_phrase_span_never_returns (d : Doc) (h : Nat) (rels : List String)
    (x : Nat) (xs : List Nat) :
    (recognizerCall phraseDoc).map (fun r => r.user_data_bunsetu_heads) =
      Except.ok (PyVal.funcObj "bunsetu_head_list") ∧
    bunsetu_phrase_span d (PyVal.funcObj "bunsetu_head_list") h rels =
      Except.error "TypeError" ∧
    bunsetu_phrase_span d (PyVal.tupleNat (x :: xs)) h rels =
      Except.error "AttributeError" :=
  ⟨rfl, rfl, rfl⟩

/-- Claim C6 (counterexample): on `cycDoc`, whose governor indices 2 and
3 form a head-index cycle that the recovery pass walks into, the full
`BunsetuRecognizer.__call__` runs to completion and returns an ordinary
result — no `MalformedTreeError` (no failure of any kind) is raised, and
no validation happens before the passes run. -/
theorem C6_cycle_processed_without_failure :
    recognizerCall cycDoc =
      Except.ok
        ⟨[⟨"VERB", "ROOT", 0⟩, ⟨"NOUN", "obj", 0⟩, ⟨"NOUN", "z", 3⟩, ⟨"NOUN", "y", 2⟩],
         [true, false, true, true], [0, 2, 3], PyVal.funcObj "bunsetu_head_list",
         ["B", "I", "B", "I"]⟩ := rfl

/-- Claim C6 (amended): the governor ascent started at cursor `c`
executes at most `c` loop iterations — the guard `t.head.i < t.i`
forces the cursor to strictly decrease — so the ascent is intrinsically
bounded by the sentence length and can never loop on a head-index
cycle; no bound check, raise, or malformed-tree error path exists
anywhere in the pass. -/
theorem C6_ascent_bounded_by_cursor (d : Doc) (heads : List Bool) (c : Nat) :
    ascendSteps d heads c ≤ c :=
  ascendStepsFuel_le d (c + 1) heads c

/-- Claim C7: on the 5-token scenario sentence, `__call__` computes the
head tuple `(1,)` and the boundary tags `[B, I, I, I, I]` — one chunk
spanning the whole sentence, with `B` written at cursor position 0 (not
at the head's own index 1) and the right-edge scan over the head's right
dependents ending at index 4. -/
theorem C7_scenario_single_chunk :
    (recognizerCall s7Doc).map (fun r => r.bunsetu_heads) = Except.ok [1] ∧
    (recognizerCall s7Doc).map (fun r => r.user_data_bunsetu_bi_labels) =
      Except.ok ["B", "I", "I", "I", "I"] ∧
    (recognizerCall s7Doc).map (fun r => r.heads) =
      Except.ok [false, true, false, false, false] ∧
    beginTrace s7Doc [false, true, false, false, false] = [0] ∧
    scanRights s7Doc [false, true, false, false, false] 1 = 4 :=
  ⟨rfl, rfl, rfl, by decide, by decide⟩

/-- Claim C8 (evaluation of the failing path): `bunsetu_span` never
returns a chunk — for any boundary list, document length and token
index it raises `AttributeError`, because line 59 hands the bare `Doc`
to `bunsetu_bi_labels` and the slice at line 101 evaluates
`span.start`, an attribute a spaCy `Doc` does not have. The chunk
recomputation the claim describes (the scans of lines 62-74) is
unreachable. -/
theorem C8_bunsetu_span_always_raises (bi : List String) (doc_len hi : Nat) :
    bunsetu_span bi doc_len hi = Except.error "AttributeError" := rfl

/-- Claim C9 (counterexample): in the window `w9 = doc[1:3]`, token
position 1 (document index 2, label `"y"`) is the window's effective
syntactic head — its governor 0 lies outside the window `[1, 2]` — and
the suffix is nonempty, yet `append_bunsetu_head_dep_suffix` changes
nothing: the scan returns at the root-labeled window token 1 before
reaching the effective head. -/
theorem C9_effective_head_not_annotated :
    append_bunsetu_head_dep_suffix w9 "_bunsetu" = w9 ∧
    crossPred ((w9.headD ⟨0, "", 0⟩).i) ((w9.getLastD ⟨0, "", 0⟩).i) ⟨2, "y", 0⟩ = true ∧
    w9.getD 1 ⟨0, "", 0⟩ = ⟨2, "y", 0⟩ ∧ (w9.getD 1 ⟨0, "", 0⟩).dep ≠ "ROOT" := by decide

/-- Claim C9 (amended): `append_bunsetu_head_dep_suffix` is a no-op on
the empty suffix; otherwise it appends the suffix to the first window
token whose governor lies outside `[first.i, last.i]`, provided no
token at an earlier-or-equal position has a label that lowercases to
`"root"` — in which case nothing changes. At most one token is ever
modified. -/
theorem C9_append_suffix_characterization (w : List WTok) (suffix : String) :
    append_bunsetu_head_dep_suffix w suffix =
      if suffix = "" then w
      else if windowTarget w < windowRootBlock w ∧ windowTarget w < w.length then
        w.set (windowTarget w)
          { w.getD (windowTarget w) ⟨0, "", 0⟩ with
              dep := (w.getD (windowTarget w) ⟨0, "", 0⟩).dep ++ suffix }
      else w := by
  by_cases hs : suffix = ""
  · rw [if_pos hs]
    simp [append_bunsetu_head_dep_suffix, hs]
  · rw [if_neg hs]
    unfold append_bunsetu_head_dep_suffix
    rw [if_neg hs]
    simpa [windowTarget, windowRootBlock] using
      appendGo_char ((w.headD ⟨0, "", 0⟩).i) ((w.getLastD ⟨0, "", 0⟩).i) suffix w

/-- Claim C10 (counterexample): on the two-token sentence `ts10`, one
run of the head-marking pass marks `{0, 1}` and strips the suffix of
token 1; a second run on the stripped labels marks only `{0}` — the two
head sets differ, so head marking run twice does not yield the same
head set as one run. -/
theorem C10_second_run_shrinks_heads :
    (headMarker ts10).1 = [true, true] ∧
    (headMarker (headMarker ts10).2).1 = [true, false] ∧
    (headMarker (headMarker ts10).2).1 ≠ (headMarker ts10).1 := by decide

/-- Claim C10 (amended): the second head-marking run marks nothing new —
every token the second run marks (on the labels already stripped by the
first run) was already marked by the first run. -/
theorem C10_second_run_marks_nothing_new (ts : List Token) (i : Nat) :
    ((headMarker (headMarker ts).2).1.getD i false) ≤ ((headMarker ts).1.getD i false) := by
  induction ts generalizing i with
  | nil => simp [headMarker]
  | cons t ts ih =>
    cases i with
    | zero => simpa [headMarker] using markTwice_le t
    | succ n => simpa [headMarker] using ih n

end Ginza
